import Mathlib

/-!
Verification development for the sigma.js renderer core (the `Sigma` class of
the repository). The definitions below are a shallow embedding of the
TypeScript source: JavaScript numbers are modelled by rationals, absent object
properties by `Option`, thrown exceptions by an explicit error component, and
JavaScript truthiness tests (`!data.size` and the like) by explicit
comparisons with the falsy values of the relevant type.
-/

namespace SigmaJS

/-! ### Data model: attributes, display data, settings -/

/-- Raw node attributes as they come out of the graph or out of a node
reducer. Every property may be absent, which is modelled by `Option`. -/
structure NodeAttrs where
  x : Option ℚ
  y : Option ℚ
  color : Option String
  label : Option String
  size : Option ℚ
  hidden : Option Bool
  highlighted : Option Bool
  type : Option String
  zIndex : Option ℚ
deriving DecidableEq

/-- Resolved node display data, mirroring `NodeDisplayData` after
`applyNodeDefaults` ran. The `label` field keeps the null sentinel of the
source as `none`, distinct from `some` of the empty string. -/
structure NodeDisplayData where
  x : ℚ
  y : ℚ
  color : String
  label : Option String
  size : ℚ
  hidden : Bool
  highlighted : Bool
  type : String
  zIndex : ℚ
deriving DecidableEq

/-- Raw edge attributes, every property possibly absent. -/
structure EdgeAttrs where
  color : Option String
  label : Option String
  size : Option ℚ
  hidden : Option Bool
  type : Option String
  zIndex : Option ℚ
deriving DecidableEq

/-- Resolved edge display data, mirroring `EdgeDisplayData`. -/
structure EdgeDisplayData where
  color : String
  label : String
  size : ℚ
  hidden : Bool
  type : String
  zIndex : ℚ
deriving DecidableEq

/-- The slice of the settings object that the embedded functions read:
default colors and types, and the optional node and edge reducers. -/
structure Settings where
  defaultNodeColor : String
  defaultNodeType : String
  defaultEdgeColor : String
  defaultEdgeType : String
  nodeReducer : Option (String → NodeAttrs → NodeAttrs)
  edgeReducer : Option (String → EdgeAttrs → EdgeAttrs)

/-- Errors thrown by `process`: a missing node position thrown by
`applyNodeDefaults`, or an unregistered node or edge program type. -/
inductive ProcErr where
  | missingPosition (key : String)
  | noNodeProgram (tp : String)
  | noEdgeProgram (tp : String)
deriving DecidableEq

/-! ### applyNodeDefaults / applyEdgeDefaults -/

/-- Embedding of `applyNodeDefaults`. The source first throws when the data
lacks an `x` or a `y` property, then fills defaults. JavaScript falsiness of
`!data.color`, `!data.size`, `!data.type`, `!data.zIndex` is modelled by an
explicit test against the empty string or zero; `hidden` and `highlighted`
use a `hasOwnProperty` test, modelled by matching on the `Option`. -/
def applyNodeDefaults (settings : Settings) (key : String) (data : NodeAttrs) :
    Except ProcErr NodeDisplayData :=
  match data.x, data.y with
  | some px, some py =>
    Except.ok
      { x := px
        y := py
        color :=
          match data.color with
          | none => settings.defaultNodeColor
          | some c => if c = "" then settings.defaultNodeColor else c
        label := data.label
        size :=
          match data.size with
          | none => 2
          | some v => if v = 0 then 2 else v
        hidden := match data.hidden with | none => false | some b => b
        highlighted := match data.highlighted with | none => false | some b => b
        type :=
          match data.type with
          | none => settings.defaultNodeType
          | some t => if t = "" then settings.defaultNodeType else t
        zIndex :=
          match data.zIndex with
          | none => 0
          | some v => if v = 0 then 0 else v }
  | _, _ => Except.error (ProcErr.missingPosition key)

/-- Embedding of `applyEdgeDefaults`, which never throws. -/
def applyEdgeDefaults (settings : Settings) (_key : String) (data : EdgeAttrs) :
    EdgeDisplayData :=
  { color :=
      match data.color with
      | none => settings.defaultEdgeColor
      | some c => if c = "" then settings.defaultEdgeColor else c
    label :=
      match data.label with
      | none => ""
      | some l => l
    size :=
      match data.size with
      | none => 1/2
      | some v => if v = 0 then 1/2 else v
    hidden := match data.hidden with | none => false | some b => b
    type :=
      match data.type with
      | none => settings.defaultEdgeType
      | some t => if t = "" then settings.defaultEdgeType else t
    zIndex :=
      match data.zIndex with
      | none => 0
      | some v => if v = 0 then 0 else v }

/-! ### The process pass -/

/-- The graph as `process` enumerates it: node keys with raw attributes, and
edge keys with raw attributes. -/
structure GraphModel where
  nodes : List (String × NodeAttrs)
  edges : List (String × EdgeAttrs)

/-- Application of the optional node reducer, as in `process`:
`if (settings.nodeReducer) attr = settings.nodeReducer(node, attr)`. -/
def applyNodeReducer (settings : Settings) (key : String) (attr : NodeAttrs) : NodeAttrs :=
  match settings.nodeReducer with
  | none => attr
  | some f => f key attr

/-- Application of the optional edge reducer. -/
def applyEdgeReducer (settings : Settings) (key : String) (attr : EdgeAttrs) : EdgeAttrs :=
  match settings.edgeReducer with
  | none => attr
  | some f => f key attr

/-- Predicate: the attribute set carries both an `x` and a `y` property. -/
def hasPosition (a : NodeAttrs) : Prop := a.x.isSome ∧ a.y.isSome

instance (a : NodeAttrs) : Decidable (hasPosition a) := by
  unfold hasPosition; infer_instance

/-- First loop of `process` over the nodes: reduce attributes, apply the node
defaults and collect the display data into the cache, stopping at the first
thrown error as the source does. Returns the cache entries written before the
stop together with the error, if any. -/
def resolveNodes (settings : Settings) :
    List (String × NodeAttrs) → List (String × NodeDisplayData) × Option ProcErr
  | [] => ([], none)
  | (key, attr) :: rest =>
    match applyNodeDefaults settings key (applyNodeReducer settings key attr) with
    | Except.error e => ([], some e)
    | Except.ok d =>
      let r := resolveNodes settings rest
      ((key, d) :: r.1, r.2)

/-- Edge loop of `process`: reduce attributes and apply the edge defaults;
this loop cannot throw. -/
def resolveEdges (settings : Settings) (l : List (String × EdgeAttrs)) :
    List (String × EdgeDisplayData) :=
  l.map fun p => (p.1, applyEdgeDefaults settings p.1 (applyEdgeReducer settings p.1 p.2))

/-- Increment the per-type counter of a census list, appending the type at
the end on first occurrence. This mirrors the insertion order of keys of the
`nodesPerPrograms` JavaScript object. -/
def bumpType (t : String) : List (String × Nat) → List (String × Nat)
  | [] => [(t, 1)]
  | (u, n) :: rest => if u = t then (u, n + 1) :: rest else (u, n) :: bumpType t rest

/-- Per-type census of a list of resolved types, in first-occurrence order,
as accumulated by the `nodesPerPrograms` and `edgesPerPrograms` objects. -/
def typeCensus (types : List String) : List (String × Nat) :=
  types.foldl (fun acc t => bumpType t acc) []

/-- One buffer allocation performed by `process`: which side (node or edge),
for which type, and for how many entities. -/
structure AllocEvent where
  isNode : Bool
  tp : String
  count : Nat
deriving DecidableEq

/-- The per-type check-and-allocate loop of `process`
(`for (const type in nodesPerPrograms) ...`): an unregistered type throws,
a registered one allocates (unless `keepArrays` suppresses allocation) and
the loop moves on. Returns the allocations performed before a throw, plus
the error if one was thrown. -/
def checkAlloc (isNode : Bool) (programs : List String) (keepArrays : Bool) :
    List (String × Nat) → List AllocEvent × Option ProcErr
  | [] => ([], none)
  | (t, n) :: rest =>
    if t ∈ programs then
      let r := checkAlloc isNode programs keepArrays rest
      ((if keepArrays then [] else [⟨isNode, t, n⟩]) ++ r.1, r.2)
    else
      ([], some (if isNode then ProcErr.noNodeProgram t else ProcErr.noEdgeProgram t))

/-- Observable outcome of a `process` call: the display-data caches as
written, the buffer allocations performed, and the error thrown, if any. -/
structure ProcResult where
  nodeCache : List (String × NodeDisplayData)
  edgeCache : List (String × EdgeDisplayData)
  allocs : List AllocEvent
  error : Option ProcErr
deriving DecidableEq

/-- Embedding of `Sigma.process(keepArrays)` restricted to the behaviour the
claims are about: node display-data resolution, the node per-type
check-and-allocate loop, edge display-data resolution, and the edge per-type
check-and-allocate loop, in the order of the source, stopping at the first
thrown error. -/
def processModel (settings : Settings) (nodePrograms edgePrograms : List String)
    (keepArrays : Bool) (g : GraphModel) : ProcResult :=
  let rn := resolveNodes settings g.nodes
  match rn.2 with
  | some e => ⟨rn.1, [], [], some e⟩
  | none =>
    let ca := checkAlloc true nodePrograms keepArrays (typeCensus (rn.1.map fun p => p.2.type))
    match ca.2 with
    | some e => ⟨rn.1, [], ca.1, some e⟩
    | none =>
      let re := resolveEdges settings g.edges
      let ce := checkAlloc false edgePrograms keepArrays (typeCensus (re.map fun p => p.2.type))
      match ce.2 with
      | some e => ⟨rn.1, re, ca.1 ++ ce.1, some e⟩
      | none => ⟨rn.1, re, ca.1 ++ ce.1, none⟩

/-! ### The refresh scheduler -/

/-- Scheduling state of a `Sigma` instance: the pending-frame tokens
(modelled as booleans, since only presence matters), the two dirty flags, the
hovered node, and observation counters for frame requests, frame
cancellations, process passes and renders. -/
structure SchedState where
  renderFrame : Bool
  renderHighlightedNodesFrame : Bool
  needToProcess : Bool
  needToSoftProcess : Bool
  hoveredNode : Option String
  framesRequested : Nat
  hlFramesRequested : Nat
  framesCanceled : Nat
  processCount : Nat
  softProcessCount : Nat
  renderCount : Nat
  hlRenderCount : Nat
deriving DecidableEq

/-- Embedding of `Sigma.render` restricted to its scheduling effects: a
pending scheduled render is canceled and both dirty flags are cleared, then
one render pass is counted. -/
def render (s : SchedState) : SchedState :=
  let s1 :=
    if s.renderFrame then
      { s with renderFrame := false, framesCanceled := s.framesCanceled + 1,
               needToProcess := false, needToSoftProcess := false }
    else s
  { s1 with renderCount := s1.renderCount + 1 }

/-- Embedding of `Sigma._refresh`: run the full process pass when
`needToProcess` is set, else the soft pass when `needToSoftProcess` is set;
reset both flags; then render. -/
def refreshInternal (s : SchedState) : SchedState :=
  let s1 :=
    if s.needToProcess then { s with processCount := s.processCount + 1 }
    else if s.needToSoftProcess then { s with softProcessCount := s.softProcessCount + 1 }
    else s
  render { s1 with needToProcess := false, needToSoftProcess := false }

/-- Embedding of `Sigma._scheduleRefresh`: request an animation frame only
when none is pending. -/
def scheduleRefreshInternal (s : SchedState) : SchedState :=
  if s.renderFrame then s
  else { s with renderFrame := true, framesRequested := s.framesRequested + 1 }

/-- Embedding of `Sigma.scheduleRefresh`: set the full-rebuild dirty flag and
schedule a refresh. -/
def scheduleRefresh (s : SchedState) : SchedState :=
  scheduleRefreshInternal { s with needToProcess := true }

/-- Firing of the frame callback registered by `_scheduleRefresh`: it runs
`_refresh` and then clears the pending token. Nothing happens when no frame
is pending. -/
def fireRefresh (s : SchedState) : SchedState :=
  if s.renderFrame then { refreshInternal s with renderFrame := false } else s

/-- Embedding of `Sigma.scheduleHighlightedNodesRender`: return without doing
anything when either a highlight frame or a main render frame is pending,
else request a highlight frame. -/
def scheduleHighlightedNodesRender (s : SchedState) : SchedState :=
  if s.renderHighlightedNodesFrame || s.renderFrame then s
  else { s with renderHighlightedNodesFrame := true,
                hlFramesRequested := s.hlFramesRequested + 1 }

/-- Firing of the highlight-frame callback: it resets the pending token and
renders the highlighted nodes, reading the hover state at fire time. -/
def fireHighlightedNodesRender (s : SchedState) : SchedState :=
  if s.renderHighlightedNodesFrame then
    { s with renderHighlightedNodesFrame := false, hlRenderCount := s.hlRenderCount + 1 }
  else s

/-- A hover-state change as performed by the `handleMove` listener of
`bindEventHandlers`: the hovered node is updated and a highlight render is
scheduled. No pending callback is touched. -/
def hoverChange (n : Option String) (s : SchedState) : SchedState :=
  scheduleHighlightedNodesRender { s with hoveredNode := n }

/-! ### Coordinate transforms -/

/-- Camera state: pan (in framed-graph coordinates), rotation angle and zoom
ratio. -/
structure CameraState where
  x : ℚ
  y : ℚ
  angle : ℚ
  ratio : ℚ
deriving DecidableEq

/-- Width and height of the viewport or of the graph bounding box. -/
structure Dimensions where
  width : ℚ
  height : ℚ
deriving DecidableEq

/-- A 3 by 3 homogeneous 2D transform matrix whose last row is `[0, 0, 1]`,
as produced by the matrix utilities of the source. Row-major entries; `m13`
and `m23` are the translation column. -/
structure Aff2 where
  m11 : ℚ
  m12 : ℚ
  m13 : ℚ
  m21 : ℚ
  m22 : ℚ
  m23 : ℚ
deriving DecidableEq

/-- Matrix product of two homogeneous transforms. -/
def multiply (m n : Aff2) : Aff2 :=
  { m11 := m.m11 * n.m11 + m.m12 * n.m21
    m12 := m.m11 * n.m12 + m.m12 * n.m22
    m13 := m.m11 * n.m13 + m.m12 * n.m23 + m.m13
    m21 := m.m21 * n.m11 + m.m22 * n.m21
    m22 := m.m21 * n.m12 + m.m22 * n.m22
    m23 := m.m21 * n.m13 + m.m22 * n.m23 + m.m23 }

/-- Application of a homogeneous transform to a point, as `multiplyVec` does
with the vector `[x, y, 1]`. -/
def multiplyVec (m : Aff2) (v : ℚ × ℚ) : ℚ × ℚ :=
  (m.m11 * v.1 + m.m12 * v.2 + m.m13, m.m21 * v.1 + m.m22 * v.2 + m.m23)

/-- Anisotropic scale matrix. -/
def scale (a b : ℚ) : Aff2 := ⟨a, 0, 0, 0, b, 0⟩

/-- Rotation matrix given the cosine and the sine of the angle. -/
def rotate (c s : ℚ) : Aff2 := ⟨c, -s, 0, s, c, 0⟩

/-- Translation matrix. -/
def translate (tx ty : ℚ) : Aff2 := ⟨1, 0, tx, 0, 1, ty⟩

/-- Modelled from the spec: the pure function `matrixFromCamera` lives in
`src/utils`, which is not part of the sources at hand; only its call sites
are. Following the specification, the forward matrix composes graph-extent
normalization (the bounding box is scaled uniformly into a `[-1, 1]` square,
accounting for the viewport aspect ratio and the stage padding), rotation by
the camera angle, translation by the camera pan (which the data model places
in framed-graph coordinates, hence it applies to framed points), and scale by
one over the camera ratio; the inverse variant composes the inverses of the
same stages in reverse order. Since the embedding is over the rationals, the
rotation is represented by the cosine `c` and the sine `s` of the camera
angle, passed explicitly. -/
def matrixFromCamera (c s : ℚ) (state : CameraState)
    (viewportDimensions graphDimensions : Dimensions) (padding : ℚ)
    (inverse : Bool) : Aff2 :=
  let smallest := min viewportDimensions.width viewportDimensions.height - 2 * padding
  let sx := smallest / viewportDimensions.width
  let sy := smallest / viewportDimensions.height
  let k := 2 / max graphDimensions.width graphDimensions.height
  match inverse with
  | true =>
    multiply (translate state.x state.y)
      (multiply (scale (1 / k) (1 / k))
        (multiply (scale state.ratio state.ratio)
          (multiply (rotate c (-s)) (scale (1 / sx) (1 / sy)))))
  | false =>
    multiply (scale sx sy)
      (multiply (rotate c s)
        (multiply (scale (1 / state.ratio) (1 / state.ratio))
          (multiply (scale k k) (translate (-state.x) (-state.y)))))

/-- Embedding of `Sigma.framedGraphToViewport` on the no-override path: the
matrix is the stored forward matrix, which `render` keeps equal to
`matrixFromCamera` of the current camera state; the matrix output in the
`[-1, 1]` normalized device space is then mapped to viewport pixels with a
vertical flip. -/
def framedGraphToViewport (c s : ℚ) (state : CameraState)
    (dims graphDims : Dimensions) (padding : ℚ) (coordinates : ℚ × ℚ) : ℚ × ℚ :=
  let matrix := matrixFromCamera c s state dims graphDims padding false
  let viewportVec := multiplyVec matrix coordinates
  (((1 + viewportVec.1) * dims.width) / 2, ((1 - viewportVec.2) * dims.height) / 2)

/-- Embedding of `Sigma.viewportToFramedGraph` on the no-override path: the
viewport point is mapped to the `[-1, 1]` normalized device space with a
vertical flip, then the inverse matrix of the current camera state is
applied. -/
def viewportToFramedGraph (c s : ℚ) (state : CameraState)
    (dims graphDims : Dimensions) (padding : ℚ) (coordinates : ℚ × ℚ) : ℚ × ℚ :=
  let invMatrix := matrixFromCamera c s state dims graphDims padding true
  let viewportVec : ℚ × ℚ :=
    ((coordinates.1 / dims.width) * 2 - 1, 1 - (coordinates.2 / dims.height) * 2)
  multiplyVec invMatrix viewportVec

/-- Embedding of `Sigma.getViewportZoomedState`: the camera state that zooms
to `newRatio` while keeping the graph point under `viewportTarget` fixed.
Angle is kept, ratio becomes `newRatio`, and the pan is shifted by the
framed-graph delta between the target anchor and the viewport center anchor,
scaled by `1 - newRatio / ratio`. -/
def getViewportZoomedState (c s : ℚ) (state : CameraState)
    (dims graphDims : Dimensions) (padding : ℚ)
    (viewportTarget : ℚ × ℚ) (newRatio : ℚ) : CameraState :=
  let ratioDiff := newRatio / state.ratio
  let center : ℚ × ℚ := (dims.width / 2, dims.height / 2)
  let graphMousePosition := viewportToFramedGraph c s state dims graphDims padding viewportTarget
  let graphCenterPosition := viewportToFramedGraph c s state dims graphDims padding center
  { x := (graphMousePosition.1 - graphCenterPosition.1) * (1 - ratioDiff) + state.x
    y := (graphMousePosition.2 - graphCenterPosition.2) * (1 - ratioDiff) + state.y
    angle := state.angle
    ratio := newRatio }

/-! ### Display-data getters, with an explicit object heap -/

/-- A display-data cache together with the object heap it points into. The
cache maps entity keys to references; the heap maps references to payloads.
Explicit references let the embedding express that `getNodeDisplayData`
returns a fresh shallow copy rather than the cached object itself. -/
structure RefCache (α : Type) where
  next : Nat
  store : Nat → α
  cache : String → Option Nat

/-- Generic body of `getNodeDisplayData` and `getEdgeDisplayData`: look the
key up in the cache; on a hit, allocate a fresh object holding a copy of the
cached data (`Object.assign({}, node)`) and return its reference, else return
`undefined`. -/
def getDisplayDataRef {α : Type} (st : RefCache α) (key : String) :
    Option Nat × RefCache α :=
  match st.cache key with
  | none => (none, st)
  | some r =>
    (some st.next,
     { st with next := st.next + 1,
               store := fun i => if i = st.next then st.store r else st.store i })

/-- Embedding of `Sigma.getNodeDisplayData`. -/
def getNodeDisplayData (st : RefCache NodeDisplayData) (key : String) :
    Option Nat × RefCache NodeDisplayData :=
  getDisplayDataRef st key

/-- Embedding of `Sigma.getEdgeDisplayData`. -/
def getEdgeDisplayData (st : RefCache EdgeDisplayData) (key : String) :
    Option Nat × RefCache EdgeDisplayData :=
  getDisplayDataRef st key

/-- Mutation of the object behind a reference, as user code could perform on
the value returned by the getters. -/
def heapWrite {α : Type} (st : RefCache α) (r : Nat) (v : α) : RefCache α :=
  { st with store := fun i => if i = r then v else st.store i }

/-- Well-formedness of a cache-and-heap state: every cached reference was
allocated before `next`. -/
def WFCache {α : Type} (st : RefCache α) : Prop :=
  ∀ k r, st.cache k = some r → r < st.next

/-! ### Graph dimensions -/

/-- An axis-aligned bounding box, as a pair of extents. -/
structure BBox where
  x : ℚ × ℚ
  y : ℚ × ℚ
deriving DecidableEq

/-- The extent state `getGraphDimensions` reads: the custom bounding box, if
set, and the node extent computed by the last `process` pass. -/
structure ExtentState where
  customBBox : Option BBox
  nodeExtent : BBox
deriving DecidableEq

/-- Embedding of `Sigma.getGraphDimensions`: each axis yields the extent
span, with the JavaScript `|| 1` fallback modelled by an explicit test
against zero. -/
def getGraphDimensions (st : ExtentState) : Dimensions :=
  let extent : BBox := match st.customBBox with | some b => b | none => st.nodeExtent
  { width := if extent.x.2 - extent.x.1 = 0 then 1 else extent.x.2 - extent.x.1
    height := if extent.y.2 - extent.y.1 = 0 then 1 else extent.y.2 - extent.y.1 }

/-! ### Concrete inputs used by the witnesses and counterexamples -/

/-- Settings with no reducers, used by concrete evaluations. -/
def exSettings : Settings :=
  ⟨"#999", "circle", "#ccc", "line", none, none⟩

/-- Node attributes with a position and an explicitly supplied size of zero. -/
def exAttrsSizeZero : NodeAttrs :=
  ⟨some 0, some 0, none, none, some 0, none, none, none, none⟩

/-- Node attributes with a position and a registered type. -/
def exAttrsCircle : NodeAttrs :=
  ⟨some 0, some 0, none, none, none, none, none, some "circle", none⟩

/-- Node attributes with a position and an unregistered type. -/
def exAttrsWeird : NodeAttrs :=
  ⟨some 1, some 1, none, none, none, none, none, some "weird", none⟩

/-- Node attributes lacking both position properties. -/
def exAttrsNoPos : NodeAttrs :=
  ⟨none, none, none, none, none, none, none, none, none⟩

/-- A graph whose first node has a registered type and whose second node has
an unregistered type. -/
def exGraphMixed : GraphModel :=
  ⟨[("a", exAttrsCircle), ("b", exAttrsWeird)], []⟩

/-- A graph whose second node has no position. -/
def exGraphNoPos : GraphModel :=
  ⟨[("a", exAttrsCircle), ("b", exAttrsNoPos)], []⟩

/-- A graph whose nodes all have positions and registered types. -/
def exGraphGood : GraphModel :=
  ⟨[("a", exAttrsCircle)], []⟩

/-- A scheduler state with a pending highlight frame and no pending main
frame. -/
def exSchedPendingHl : SchedState :=
  ⟨false, true, false, false, some "a", 0, 1, 0, 0, 0, 0, 0⟩

/-- A scheduler state with nothing pending and clean flags. -/
def exSchedIdle : SchedState :=
  ⟨false, false, false, false, none, 0, 0, 0, 0, 0, 0, 0⟩

/-- A camera state with nonzero pan and ratio 2. -/
def exCamera : CameraState := ⟨3, 4, 0, 2⟩

/-- A 100 by 50 viewport. -/
def exDims : Dimensions := ⟨100, 50⟩

/-- A 2 by 1 graph bounding box. -/
def exGraphDims : Dimensions := ⟨2, 1⟩

/-- A resolved node display datum used to populate concrete caches. -/
def exDisplayDatum : NodeDisplayData :=
  ⟨0, 0, "#999", none, 2, false, false, "circle", 0⟩

/-- A resolved edge display datum used to populate concrete caches. -/
def exEdgeDatum : EdgeDisplayData :=
  ⟨"#ccc", "", 1/2, false, "line", 0⟩

/-- A well-formed node cache-and-heap with one entry under key `a`. -/
def exNodeCache : RefCache NodeDisplayData :=
  ⟨1, fun _ => exDisplayDatum, fun k => if k = "a" then some 0 else none⟩

/-- A well-formed edge cache-and-heap with one entry under key `e`. -/
def exEdgeCache : RefCache EdgeDisplayData :=
  ⟨1, fun _ => exEdgeDatum, fun k => if k = "e" then some 0 else none⟩

/-- An extent state with a degenerate custom bounding box on the x axis. -/
def exExtentState : ExtentState :=
  ⟨some ⟨(0, 0), (1, 3)⟩, ⟨(0, 1), (0, 1)⟩⟩

/-- Node attributes mixing explicitly supplied values (position, empty-string
color and type, empty-string label, size 3, hidden, zIndex 5) with absent
ones (highlighted). -/
def exAttrsMixed : NodeAttrs :=
  ⟨some 1, some 2, some "", some "", some 3, some true, none, some "", some 5⟩

/-! ## Theorems -/

/-! ### Graph dimensions (claim C10) -/

/-- A span with the `|| 1` fallback is never zero. -/
theorem ite_span_ne_zero (q : ℚ) : (if q = 0 then 1 else q) ≠ 0 := by
  split
  · norm_num
  · assumption

/-- C10: `getGraphDimensions` always returns strictly nonzero dimensions:
per axis it returns the extent span of the custom bounding box when one is
set, else of the computed node extent, substituting 1 whenever that span is
zero. -/
theorem claim10_getGraphDimensions (st : ExtentState) :
    (getGraphDimensions st).width ≠ 0 ∧ (getGraphDimensions st).height ≠ 0 ∧
    (∀ b, st.customBBox = some b →
      getGraphDimensions st =
        ⟨if b.x.2 - b.x.1 = 0 then 1 else b.x.2 - b.x.1,
         if b.y.2 - b.y.1 = 0 then 1 else b.y.2 - b.y.1⟩) ∧
    (st.customBBox = none →
      getGraphDimensions st =
        ⟨if st.nodeExtent.x.2 - st.nodeExtent.x.1 = 0 then 1
            else st.nodeExtent.x.2 - st.nodeExtent.x.1,
         if st.nodeExtent.y.2 - st.nodeExtent.y.1 = 0 then 1
            else st.nodeExtent.y.2 - st.nodeExtent.y.1⟩) := by
  refine ⟨?_, ?_, ?_, ?_⟩
  · unfold getGraphDimensions
    rcases st.customBBox with _ | b <;> exact ite_span_ne_zero _
  · unfold getGraphDimensions
    rcases st.customBBox with _ | b <;> exact ite_span_ne_zero _
  · intro b hb
    unfold getGraphDimensions
    rw [hb]
  · intro hb
    unfold getGraphDimensions
    rw [hb]

/-- Concrete instantiation of C10 at a degenerate custom bounding box. -/
theorem claim10_witness :
    (getGraphDimensions exExtentState).width ≠ 0 ∧
    (getGraphDimensions exExtentState).height ≠ 0 ∧
    getGraphDimensions exExtentState = ⟨1, 2⟩ := by
  have h := claim10_getGraphDimensions exExtentState
  refine ⟨h.1, h.2.1, ?_⟩
  rw [h.2.2.1 ⟨(0, 0), (1, 3)⟩ rfl]
  norm_num

/-! ### The refresh scheduler (claims C4, C5, C8) -/

/-- C5: whenever a refresh fires, the full process pass runs when
`needToProcess` is set, else the soft pass runs when `needToSoftProcess` is
set; render then runs exactly once; and both dirty flags are cleared by the
end of the refresh, whatever their initial values. -/
theorem claim5_refresh_dispatch (s : SchedState) :
    (refreshInternal s).needToProcess = false ∧
    (refreshInternal s).needToSoftProcess = false ∧
    (refreshInternal s).renderCount = s.renderCount + 1 ∧
    (refreshInternal s).processCount =
      s.processCount + (if s.needToProcess then 1 else 0) ∧
    (refreshInternal s).softProcessCount =
      s.softProcessCount +
        (if s.needToProcess = false ∧ s.needToSoftProcess = true then 1 else 0) := by
  rcases s with ⟨rf, hf, np, nsp, hn, fr, hfr, fc, pc, spc, rc, hrc⟩
  rcases np <;> rcases nsp <;> rcases rf <;>
    simp [refreshInternal, render]

/-- Scheduling a refresh while a frame is pending only sets the dirty flag. -/
theorem scheduleRefresh_pending (t : SchedState) (h : t.renderFrame = true) :
    scheduleRefresh t = { t with needToProcess := true } := by
  rcases t with ⟨rf, hf, np, nsp, hn, fr, hfr, fc, pc, spc, rc, hrc⟩
  cases h
  simp [scheduleRefresh, scheduleRefreshInternal]

/-- Scheduling a refresh is a no-op once a frame is pending and the dirty
flag is already set. -/
theorem scheduleRefresh_fix (t : SchedState) (h1 : t.renderFrame = true)
    (h2 : t.needToProcess = true) : scheduleRefresh t = t := by
  rcases t with ⟨rf, hf, np, nsp, hn, fr, hfr, fc, pc, spc, rc, hrc⟩
  cases h1
  cases h2
  simp [scheduleRefresh, scheduleRefreshInternal]

/-- Iterating `scheduleRefresh` on a pending dirty state stays put. -/
theorem scheduleRefresh_iterate (t : SchedState) (h1 : t.renderFrame = true)
    (h2 : t.needToProcess = true) : ∀ n, scheduleRefresh^[n] t = t := by
  intro n
  induction n with
  | zero => rfl
  | succ n ih => rw [Function.iterate_succ_apply, scheduleRefresh_fix t h1 h2, ih]

/-- Scheduling a refresh with no pending frame registers one callback and
sets the dirty flag. -/
theorem scheduleRefresh_free (s : SchedState) (h : s.renderFrame = false) :
    scheduleRefresh s =
      { s with needToProcess := true, renderFrame := true,
               framesRequested := s.framesRequested + 1 } := by
  rcases s with ⟨rf, hf, np, nsp, hn, fr, hfr, fc, pc, spc, rc, hrc⟩
  cases h
  simp [scheduleRefresh, scheduleRefreshInternal]

/-- C4: calling `scheduleRefresh` N times (N at least 1) before the next
refresh opportunity registers exactly one frame callback, and the fired
refresh performs exactly one full process pass and one render; while a frame
is pending, a further call only sets the dirty flag. -/
theorem claim4_scheduleRefresh_coalesces (s : SchedState) (N : ℕ)
    (hfree : s.renderFrame = false) (hN : 1 ≤ N) :
    (scheduleRefresh^[N] s).framesRequested = s.framesRequested + 1 ∧
    (scheduleRefresh^[N] s).renderFrame = true ∧
    (∀ t : SchedState, t.renderFrame = true →
        scheduleRefresh t = { t with needToProcess := true }) ∧
    (fireRefresh (scheduleRefresh^[N] s)).processCount = s.processCount + 1 ∧
    (fireRefresh (scheduleRefresh^[N] s)).softProcessCount = s.softProcessCount ∧
    (fireRefresh (scheduleRefresh^[N] s)).renderCount = s.renderCount + 1 := by
  obtain ⟨n, rfl⟩ : ∃ n, N = n + 1 := ⟨N - 1, (Nat.succ_pred_eq_of_pos hN).symm⟩
  have hone : scheduleRefresh^[n + 1] s =
      { s with needToProcess := true, renderFrame := true,
               framesRequested := s.framesRequested + 1 } := by
    rw [Function.iterate_succ_apply, scheduleRefresh_free s hfree]
    exact scheduleRefresh_iterate _ rfl rfl n
  rw [hone]
  exact ⟨rfl, rfl, fun t ht => scheduleRefresh_pending t ht, by
    simp [fireRefresh, refreshInternal, render], by
    simp [fireRefresh, refreshInternal, render], by
    simp [fireRefresh, refreshInternal, render]⟩

/-- Concrete instantiation of C4: three schedule calls from an idle state. -/
theorem claim4_witness :
    exSchedIdle.renderFrame = false ∧ 1 ≤ 3 ∧
    (scheduleRefresh^[3] exSchedIdle).framesRequested =
      exSchedIdle.framesRequested + 1 ∧
    (fireRefresh (scheduleRefresh^[3] exSchedIdle)).processCount =
      exSchedIdle.processCount + 1 ∧
    (fireRefresh (scheduleRefresh^[3] exSchedIdle)).renderCount =
      exSchedIdle.renderCount + 1 :=
  ⟨rfl, by norm_num,
   (claim4_scheduleRefresh_coalesces exSchedIdle 3 rfl (by norm_num)).1,
   (claim4_scheduleRefresh_coalesces exSchedIdle 3 rfl (by norm_num)).2.2.2.1,
   (claim4_scheduleRefresh_coalesces exSchedIdle 3 rfl (by norm_num)).2.2.2.2.2⟩

/-- C8 counterexample: a hover change that happens while the highlight
callback is pending does not cancel or reset that pending callback: the
pending token is left in place, no frame request or cancellation happens,
only the hover state is updated. -/
theorem claim8_counterexample :
    (hoverChange (some "b") exSchedPendingHl).renderHighlightedNodesFrame = true ∧
    (hoverChange (some "b") exSchedPendingHl).hlFramesRequested =
      exSchedPendingHl.hlFramesRequested ∧
    (hoverChange (some "b") exSchedPendingHl).framesCanceled =
      exSchedPendingHl.framesCanceled ∧
    (hoverChange (some "b") exSchedPendingHl).hoveredNode = some "b" := by
  decide

/-- C8 (amended): the hover overlay channel never holds more than one pending
callback (a second schedule call is a no-op), is skipped entirely while a
main refresh frame is pending, and a hover change while its callback is
pending leaves the pending callback in place, scheduling nothing new and
canceling nothing; the callback reads the hover state when it fires. -/
theorem claim8_highlight_scheduling (s : SchedState) (n : Option String)
    (hpend : s.renderHighlightedNodesFrame = true) :
    (∀ t : SchedState, t.renderHighlightedNodesFrame = true →
        scheduleHighlightedNodesRender t = t) ∧
    (∀ t : SchedState, t.renderFrame = true →
        scheduleHighlightedNodesRender t = t) ∧
    hoverChange n s = { s with hoveredNode := n } ∧
    (fireHighlightedNodesRender (hoverChange n s)).renderHighlightedNodesFrame
      = false ∧
    (fireHighlightedNodesRender (hoverChange n s)).hlRenderCount =
      s.hlRenderCount + 1 ∧
    (fireHighlightedNodesRender (hoverChange n s)).hoveredNode = n := by
  have hsched : ∀ t : SchedState, t.renderHighlightedNodesFrame = true →
      scheduleHighlightedNodesRender t = t := by
    intro t ht
    unfold scheduleHighlightedNodesRender
    rw [ht]
    simp
  have hsched2 : ∀ t : SchedState, t.renderFrame = true →
      scheduleHighlightedNodesRender t = t := by
    intro t ht
    unfold scheduleHighlightedNodesRender
    rw [ht]
    simp
  have hhover : hoverChange n s = { s with hoveredNode := n } := by
    unfold hoverChange
    exact hsched _ hpend
  refine ⟨hsched, hsched2, hhover, ?_, ?_, ?_⟩ <;>
    rw [hhover] <;> simp [fireHighlightedNodesRender, hpend]

/-- Concrete instantiation of C8 (amended) at a pending highlight state. -/
theorem claim8_witness :
    exSchedPendingHl.renderHighlightedNodesFrame = true ∧
    hoverChange (some "b") exSchedPendingHl =
      { exSchedPendingHl with hoveredNode := some "b" } ∧
    (fireHighlightedNodesRender (hoverChange (some "b") exSchedPendingHl)).hlRenderCount
      = exSchedPendingHl.hlRenderCount + 1 :=
  ⟨rfl,
   (claim8_highlight_scheduling exSchedPendingHl (some "b") rfl).2.2.1,
   (claim8_highlight_scheduling exSchedPendingHl (some "b") rfl).2.2.2.2.1⟩

/-! ### Display-data getters (claim C9) -/

/-- Behaviour of the shared body of the display-data getters on a well-formed
cache: a miss returns `undefined`; a hit returns a fresh reference holding a
copy of the cached data, and writing through the returned reference leaves
every cached entry unchanged. -/
theorem getDisplayDataRef_spec {α : Type} (st : RefCache α) (key : String)
    (hwf : WFCache st) :
    ((getDisplayDataRef st key).1 = none ↔ st.cache key = none) ∧
    ∀ r, st.cache key = some r →
      (getDisplayDataRef st key).1 = some st.next ∧
      (getDisplayDataRef st key).2.store st.next = st.store r ∧
      ∀ v k2 r2, st.cache k2 = some r2 →
        (heapWrite (getDisplayDataRef st key).2 st.next v).store r2 = st.store r2 := by
  rcases h : st.cache key with _ | r
  · refine ⟨by simp [getDisplayDataRef, h], ?_⟩
    intro r hr
    simp at hr
  · refine ⟨by simp [getDisplayDataRef, h], ?_⟩
    intro r2 hr2
    obtain rfl : r = r2 := Option.some.inj hr2
    refine ⟨by simp [getDisplayDataRef, h], by simp [getDisplayDataRef, h], ?_⟩
    intro v k2 r2 hk2
    have hne : r2 ≠ st.next := Nat.ne_of_lt (hwf k2 r2 hk2)
    simp [getDisplayDataRef, h, heapWrite, hne]

/-- C9: `getNodeDisplayData` and `getEdgeDisplayData` return `undefined`
exactly when the key has no entry in their cache; on a hit they return a
fresh shallow copy of the cached display data, so that mutating the returned
object never changes any cached entry. -/
theorem claim9_display_data_getters (stN : RefCache NodeDisplayData)
    (stE : RefCache EdgeDisplayData) (key : String)
    (hwfN : WFCache stN) (hwfE : WFCache stE) :
    (((getNodeDisplayData stN key).1 = none ↔ stN.cache key = none) ∧
     ∀ r, stN.cache key = some r →
       (getNodeDisplayData stN key).1 = some stN.next ∧
       (getNodeDisplayData stN key).2.store stN.next = stN.store r ∧
       ∀ v k2 r2, stN.cache k2 = some r2 →
         (heapWrite (getNodeDisplayData stN key).2 stN.next v).store r2
           = stN.store r2) ∧
    (((getEdgeDisplayData stE key).1 = none ↔ stE.cache key = none) ∧
     ∀ r, stE.cache key = some r →
       (getEdgeDisplayData stE key).1 = some stE.next ∧
       (getEdgeDisplayData stE key).2.store stE.next = stE.store r ∧
       ∀ v k2 r2, stE.cache k2 = some r2 →
         (heapWrite (getEdgeDisplayData stE key).2 stE.next v).store r2
           = stE.store r2) :=
  ⟨getDisplayDataRef_spec stN key hwfN, getDisplayDataRef_spec stE key hwfE⟩

/-- Concrete instantiation of C9: a one-entry node cache hit under key `a`
and an edge cache miss under the same key. -/
theorem claim9_witness :
    WFCache exNodeCache ∧ WFCache exEdgeCache ∧
    (getNodeDisplayData exNodeCache "a").1 = some exNodeCache.next ∧
    ((getEdgeDisplayData exEdgeCache "a").1 = none ↔
      exEdgeCache.cache "a" = none) := by
  have hwfN : WFCache exNodeCache := by
    intro k r h
    simp only [exNodeCache] at h ⊢
    split at h <;> simp_all
  have hwfE : WFCache exEdgeCache := by
    intro k r h
    simp only [exEdgeCache] at h ⊢
    split at h <;> simp_all
  have happ := claim9_display_data_getters exNodeCache exEdgeCache "a" hwfN hwfE
  exact ⟨hwfN, hwfE, (happ.1.2 0 (by decide)).1, happ.2.1⟩

/-! ### Node defaults (claims C7 and C1) -/

/-- The only error `applyNodeDefaults` throws is the missing-position one,
tagged with the node key. -/
theorem applyNodeDefaults_error_form (s : Settings) (key : String) (a : NodeAttrs)
    (e : ProcErr) (h : applyNodeDefaults s key a = Except.error e) :
    e = ProcErr.missingPosition key := by
  unfold applyNodeDefaults at h
  rcases hx : a.x with _ | px <;> rcases hy : a.y with _ | py <;>
    rw [hx, hy] at h <;> simp_all

/-- A node without a position makes `applyNodeDefaults` throw the position
error; no default position is substituted. -/
theorem applyNodeDefaults_error_of_no_pos (s : Settings) (key : String)
    (a : NodeAttrs) (h : ¬ hasPosition a) :
    applyNodeDefaults s key a = Except.error (ProcErr.missingPosition key) := by
  unfold applyNodeDefaults
  rcases hx : a.x with _ | px <;> rcases hy : a.y with _ | py <;>
    simp_all [hasPosition]

/-- A successful `applyNodeDefaults` keeps the supplied position unchanged. -/
theorem applyNodeDefaults_ok_pos (s : Settings) (key : String) (a : NodeAttrs)
    (d : NodeDisplayData) (h : applyNodeDefaults s key a = Except.ok d) :
    a.x = some d.x ∧ a.y = some d.y := by
  unfold applyNodeDefaults at h
  rcases hx : a.x with _ | px <;> rcases hy : a.y with _ | py <;> rw [hx, hy] at h
  · simp at h
  · simp at h
  · simp at h
  · simp only [Except.ok.injEq] at h
    subst h
    exact ⟨rfl, rfl⟩

/-- A node carrying both position properties never triggers the position
error. -/
theorem applyNodeDefaults_ok_of_pos (s : Settings) (key : String) (a : NodeAttrs)
    (h : hasPosition a) : ∃ d, applyNodeDefaults s key a = Except.ok d := by
  unfold applyNodeDefaults
  rcases hx : a.x with _ | px <;> rcases hy : a.y with _ | py <;>
    simp_all [hasPosition]

/-- C7 counterexample: a caller-supplied size of zero is falsy in JavaScript
and is not preserved: `applyNodeDefaults` replaces it by the default size 2,
so the function does not preserve every attribute the caller supplied
explicitly. -/
theorem claim7_counterexample :
    exAttrsSizeZero.size = some 0 ∧
    applyNodeDefaults exSettings "n" exAttrsSizeZero =
      Except.ok ⟨0, 0, "#999", none, 2, false, false, "circle", 0⟩ ∧
    (2 : ℚ) ≠ 0 := by
  refine ⟨rfl, ?_, by norm_num⟩
  simp [applyNodeDefaults, exSettings, exAttrsSizeZero]

/-- C7 (amended): on an attribute set carrying a position,
`applyNodeDefaults` succeeds and fills the documented defaults, treating
JavaScript-falsy supplied values as absent: a supplied size 0 becomes 2, an
empty-string color or type is replaced by the settings default (a supplied
zIndex 0 coincides with its default 0); truthy supplied attributes are
preserved, an absent label becomes the null sentinel, and an empty-string
label is kept, distinct from the null sentinel. -/
theorem claim7_applyNodeDefaults_characterization (s : Settings) (key : String)
    (a : NodeAttrs) (px py : ℚ) (hx : a.x = some px) (hy : a.y = some py) :
    ∃ d, applyNodeDefaults s key a = Except.ok d ∧
      d.x = px ∧ d.y = py ∧
      d.label = a.label ∧
      (a.label = none → d.label = none) ∧
      (a.label = some "" → d.label = some "" ∧ d.label ≠ none) ∧
      d.size = (if a.size = none ∨ a.size = some 0 then 2 else a.size.getD 2) ∧
      d.hidden = a.hidden.getD false ∧
      d.highlighted = a.highlighted.getD false ∧
      d.type = (if a.type = none ∨ a.type = some "" then s.defaultNodeType
                else a.type.getD s.defaultNodeType) ∧
      d.color = (if a.color = none ∨ a.color = some "" then s.defaultNodeColor
                 else a.color.getD s.defaultNodeColor) ∧
      d.zIndex = a.zIndex.getD 0 := by
  unfold applyNodeDefaults
  rw [hx, hy]
  refine ⟨_, rfl, rfl, rfl, rfl, fun h => h, fun h => ⟨h, by rw [h]; simp⟩,
    ?_, ?_, ?_, ?_, ?_, ?_⟩
  · rcases a.size with _ | v
    · simp
    · by_cases hv : v = 0 <;> simp [hv]
  · rcases a.hidden with _ | b <;> rfl
  · rcases a.highlighted with _ | b <;> rfl
  · rcases a.type with _ | tp
    · simp
    · by_cases ht : tp = "" <;> simp [ht]
  · rcases a.color with _ | co
    · simp
    · by_cases hcol : co = "" <;> simp [hcol]
  · rcases a.zIndex with _ | v
    · rfl
    · by_cases hv : v = 0 <;> simp [hv]

/-- Concrete instantiation of C7 (amended) on mixed supplied and absent
attributes. -/
theorem claim7_witness :
    exAttrsMixed.x = some 1 ∧ exAttrsMixed.y = some 2 ∧
    (∃ d, applyNodeDefaults exSettings "w" exAttrsMixed = Except.ok d ∧
      d.x = 1 ∧ d.y = 2 ∧
      d.label = exAttrsMixed.label ∧
      (exAttrsMixed.label = none → d.label = none) ∧
      (exAttrsMixed.label = some "" → d.label = some "" ∧ d.label ≠ none) ∧
      d.size = (if exAttrsMixed.size = none ∨ exAttrsMixed.size = some 0 then 2
                else exAttrsMixed.size.getD 2) ∧
      d.hidden = exAttrsMixed.hidden.getD false ∧
      d.highlighted = exAttrsMixed.highlighted.getD false ∧
      d.type = (if exAttrsMixed.type = none ∨ exAttrsMixed.type = some "" then
                  exSettings.defaultNodeType
                else exAttrsMixed.type.getD exSettings.defaultNodeType) ∧
      d.color = (if exAttrsMixed.color = none ∨ exAttrsMixed.color = some "" then
                   exSettings.defaultNodeColor
                 else exAttrsMixed.color.getD exSettings.defaultNodeColor) ∧
      d.zIndex = exAttrsMixed.zIndex.getD 0) :=
  ⟨rfl, rfl,
   claim7_applyNodeDefaults_characterization exSettings "w" exAttrsMixed 1 2 rfl rfl⟩

/-! ### The process pass (claims C1 and C6) -/

/-- Unfolding of `resolveNodes` on a head node that resolves successfully. -/
theorem resolveNodes_cons_ok (s : Settings) (k0 : String) (a0 : NodeAttrs)
    (tl : List (String × NodeAttrs)) (d : NodeDisplayData)
    (h : applyNodeDefaults s k0 (applyNodeReducer s k0 a0) = Except.ok d) :
    resolveNodes s ((k0, a0) :: tl) =
      ((k0, d) :: (resolveNodes s tl).1, (resolveNodes s tl).2) := by
  simp only [resolveNodes, h]

/-- Unfolding of `resolveNodes` on a head node that throws. -/
theorem resolveNodes_cons_err (s : Settings) (k0 : String) (a0 : NodeAttrs)
    (tl : List (String × NodeAttrs)) (e : ProcErr)
    (h : applyNodeDefaults s k0 (applyNodeReducer s k0 a0) = Except.error e) :
    resolveNodes s ((k0, a0) :: tl) = ([], some e) := by
  simp only [resolveNodes, h]

/-- When some node lacks a position after reduction, the node resolution
loop stops with a position error. -/
theorem resolveNodes_err_of_bad (s : Settings) (l : List (String × NodeAttrs))
    (h : ∃ p ∈ l, ¬ hasPosition (applyNodeReducer s p.1 p.2)) :
    ∃ key, (resolveNodes s l).2 = some (ProcErr.missingPosition key) := by
  induction l with
  | nil => simp at h
  | cons hd tl ih =>
    rcases hd with ⟨k0, a0⟩
    by_cases hhd : hasPosition (applyNodeReducer s k0 a0)
    · obtain ⟨d, hd2⟩ := applyNodeDefaults_ok_of_pos s k0 _ hhd
      have htl : ∃ p ∈ tl, ¬ hasPosition (applyNodeReducer s p.1 p.2) := by
        rcases h with ⟨p, hp, hnp⟩
        rcases List.mem_cons.mp hp with rfl | hmem
        · exact absurd hhd hnp
        · exact ⟨p, hmem, hnp⟩
      obtain ⟨key, hk⟩ := ih htl
      refine ⟨key, ?_⟩
      rw [resolveNodes_cons_ok s k0 a0 tl d hd2]
      exact hk
    · exact ⟨k0, by rw [resolveNodes_cons_err s k0 a0 tl _
        (applyNodeDefaults_error_of_no_pos s k0 _ hhd)]⟩

/-- When every node carries a position after reduction, the node resolution
loop completes without error. -/
theorem resolveNodes_none_of_good (s : Settings) (l : List (String × NodeAttrs))
    (h : ∀ p ∈ l, hasPosition (applyNodeReducer s p.1 p.2)) :
    (resolveNodes s l).2 = none := by
  induction l with
  | nil => rfl
  | cons hd tl ih =>
    rcases hd with ⟨k0, a0⟩
    obtain ⟨d, hd2⟩ := applyNodeDefaults_ok_of_pos s k0 _
      (h (k0, a0) (List.mem_cons_self _ _))
    rw [resolveNodes_cons_ok s k0 a0 tl d hd2]
    exact ih fun p hp => h p (List.mem_cons_of_mem _ hp)

/-- Every error of the node resolution loop is a position error. -/
theorem resolveNodes_err_form (s : Settings) (l : List (String × NodeAttrs))
    (e : ProcErr) (h : (resolveNodes s l).2 = some e) :
    ∃ key, e = ProcErr.missingPosition key := by
  induction l with
  | nil => simp [resolveNodes] at h
  | cons hd tl ih =>
    rcases hd with ⟨k0, a0⟩
    cases hres : applyNodeDefaults s k0 (applyNodeReducer s k0 a0) with
    | error e2 =>
      rw [resolveNodes_cons_err s k0 a0 tl e2 hres] at h
      obtain rfl : e2 = e := Option.some.inj h
      exact ⟨k0, applyNodeDefaults_error_form s k0 _ _ hres⟩
    | ok d =>
      rw [resolveNodes_cons_ok s k0 a0 tl d hres] at h
      exact ih h

/-- A completed node resolution writes one cache entry per node. -/
theorem resolveNodes_len (s : Settings) (l : List (String × NodeAttrs))
    (h : (resolveNodes s l).2 = none) :
    (resolveNodes s l).1.length = l.length := by
  induction l with
  | nil => rfl
  | cons hd tl ih =>
    rcases hd with ⟨k0, a0⟩
    cases hres : applyNodeDefaults s k0 (applyNodeReducer s k0 a0) with
    | error e2 =>
      rw [resolveNodes_cons_err s k0 a0 tl e2 hres] at h
      simp at h
    | ok d =>
      rw [resolveNodes_cons_ok s k0 a0 tl d hres] at h ⊢
      simpa using ih h

/-- Unfolding of `checkAlloc` on a registered head type. -/
theorem checkAlloc_cons_mem (isNode : Bool) (progs : List String) (ka : Bool)
    (t : String) (n : ℕ) (tl : List (String × ℕ)) (h : t ∈ progs) :
    checkAlloc isNode progs ka ((t, n) :: tl) =
      ((if ka then [] else [⟨isNode, t, n⟩]) ++ (checkAlloc isNode progs ka tl).1,
       (checkAlloc isNode progs ka tl).2) := by
  simp only [checkAlloc, if_pos h]

/-- Unfolding of `checkAlloc` on an unregistered head type. -/
theorem checkAlloc_cons_not_mem (isNode : Bool) (progs : List String) (ka : Bool)
    (t : String) (n : ℕ) (tl : List (String × ℕ)) (h : t ∉ progs) :
    checkAlloc isNode progs ka ((t, n) :: tl) =
      ([], some (if isNode then ProcErr.noNodeProgram t
                 else ProcErr.noEdgeProgram t)) := by
  simp only [checkAlloc, if_neg h]

/-- Every error of the check-and-allocate loop names an unregistered type,
with the constructor matching the side of the loop. -/
theorem checkAlloc_err_form (isNode : Bool) (progs : List String) (ka : Bool)
    (census : List (String × ℕ)) (e : ProcErr)
    (h : (checkAlloc isNode progs ka census).2 = some e) :
    ∃ t, t ∉ progs ∧
      e = (if isNode then ProcErr.noNodeProgram t else ProcErr.noEdgeProgram t) := by
  induction census with
  | nil => simp [checkAlloc] at h
  | cons hd tl ih =>
    rcases hd with ⟨t, n⟩
    by_cases ht : t ∈ progs
    · rw [checkAlloc_cons_mem isNode progs ka t n tl ht] at h
      exact ih h
    · rw [checkAlloc_cons_not_mem isNode progs ka t n tl ht] at h
      exact ⟨t, ht, (Option.some.inj h).symm⟩

/-- Every allocation performed by the check-and-allocate loop is tagged with
its side and targets a registered type. -/
theorem checkAlloc_events (isNode : Bool) (progs : List String) (ka : Bool)
    (census : List (String × ℕ)) :
    ∀ ev ∈ (checkAlloc isNode progs ka census).1,
      ev.isNode = isNode ∧ ev.tp ∈ progs := by
  induction census with
  | nil => intro ev hev; simp [checkAlloc] at hev
  | cons hd tl ih =>
    rcases hd with ⟨t, n⟩
    intro ev hev
    by_cases ht : t ∈ progs
    · rw [checkAlloc_cons_mem isNode progs ka t n tl ht] at hev
      rcases List.mem_append.mp hev with h1 | h2
      · rcases ka with _ | _
        · obtain rfl : ev = ⟨isNode, t, n⟩ := by simpa using h1
          exact ⟨rfl, ht⟩
        · simp at h1
      · exact ih ev h2
    · rw [checkAlloc_cons_not_mem isNode progs ka t n tl ht] at hev
      simp at hev

/-- When the check-and-allocate loop completes without error, every census
type is registered. -/
theorem checkAlloc_none_mem (isNode : Bool) (progs : List String) (ka : Bool)
    (census : List (String × ℕ))
    (h : (checkAlloc isNode progs ka census).2 = none) :
    ∀ tn ∈ census, tn.1 ∈ progs := by
  induction census with
  | nil => intro tn htn; simp at htn
  | cons hd tl ih =>
    rcases hd with ⟨t, n⟩
    by_cases ht : t ∈ progs
    · rw [checkAlloc_cons_mem isNode progs ka t n tl ht] at h
      intro tn htn
      rcases List.mem_cons.mp htn with rfl | hmem
      · exact ht
      · exact ih h tn hmem
    · rw [checkAlloc_cons_not_mem isNode progs ka t n tl ht] at h
      simp at h

/-- Unfolding of `bumpType` when the head carries the bumped type. -/
theorem bumpType_cons_eq (t : String) (m : ℕ) (tl : List (String × ℕ)) :
    bumpType t ((t, m) :: tl) = (t, m + 1) :: tl := by
  simp [bumpType]

/-- Unfolding of `bumpType` when the head carries another type. -/
theorem bumpType_cons_ne (t u : String) (m : ℕ) (tl : List (String × ℕ))
    (h : u ≠ t) : bumpType t ((u, m) :: tl) = (u, m) :: bumpType t tl := by
  simp [bumpType, h]

/-- Membership in the census after one bump: the bumped type and every
already-present type stay present. -/
theorem bumpType_mem (t u : String) (acc : List (String × ℕ)) :
    (t = u ∨ ∃ n, (t, n) ∈ acc) → ∃ n, (t, n) ∈ bumpType u acc := by
  induction acc with
  | nil =>
    intro h
    rcases h with rfl | ⟨n, hn⟩
    · exact ⟨1, by simp [bumpType]⟩
    · exact absurd hn (List.not_mem_nil _)
  | cons hd tl ih =>
    rcases hd with ⟨v, m⟩
    intro h
    by_cases hv : v = u
    · subst hv
      rw [bumpType_cons_eq v m tl]
      rcases h with rfl | ⟨n, hn⟩
      · exact ⟨m + 1, List.mem_cons_self _ _⟩
      · rcases List.mem_cons.mp hn with heq | hmem
        · have ht : t = v := congrArg Prod.fst heq
          subst ht
          exact ⟨m + 1, List.mem_cons_self _ _⟩
        · exact ⟨n, List.mem_cons_of_mem _ hmem⟩
    · rw [bumpType_cons_ne u v m tl hv]
      rcases h with rfl | ⟨n, hn⟩
      · obtain ⟨n, hmem⟩ := ih (Or.inl rfl)
        exact ⟨n, List.mem_cons_of_mem _ hmem⟩
      · rcases List.mem_cons.mp hn with heq | hmem
        · exact ⟨n, List.mem_cons.mpr (Or.inl heq)⟩
        · obtain ⟨n2, hmem2⟩ := ih (Or.inr ⟨n, hmem⟩)
          exact ⟨n2, List.mem_cons_of_mem _ hmem2⟩

/-- Auxiliary census membership, generalized over the accumulator. -/
theorem typeCensus_mem_aux (types : List String) :
    ∀ acc t, (t ∈ types ∨ ∃ n, (t, n) ∈ acc) →
      ∃ n, (t, n) ∈ types.foldl (fun a u => bumpType u a) acc := by
  induction types with
  | nil =>
    intro acc t h
    rcases h with h | h
    · simp at h
    · simpa using h
  | cons u rest ih =>
    intro acc t h
    rw [List.foldl_cons]
    apply ih
    rcases h with h | h
    · rcases List.mem_cons.mp h with heq | hmem
      · exact Or.inr (bumpType_mem t u acc (Or.inl heq))
      · exact Or.inl hmem
    · exact Or.inr (bumpType_mem t u acc (Or.inr h))

/-- Every occurring type appears in the census. -/
theorem typeCensus_mem (types : List String) (t : String) (h : t ∈ types) :
    ∃ n, (t, n) ∈ typeCensus types :=
  typeCensus_mem_aux types [] t (Or.inl h)

/-- Unfolding of `processModel` when node resolution throws. -/
theorem processModel_err_node_resolution (s : Settings)
    (nP eP : List String) (ka : Bool) (g : GraphModel) (e : ProcErr)
    (h : (resolveNodes s g.nodes).2 = some e) :
    processModel s nP eP ka g = ⟨(resolveNodes s g.nodes).1, [], [], some e⟩ := by
  simp only [processModel, h]

/-- Unfolding of `processModel` when the node check-and-allocate loop
throws. -/
theorem processModel_err_node_alloc (s : Settings)
    (nP eP : List String) (ka : Bool) (g : GraphModel) (e : ProcErr)
    (h1 : (resolveNodes s g.nodes).2 = none)
    (h2 : (checkAlloc true nP ka
      (typeCensus ((resolveNodes s g.nodes).1.map fun p => p.2.type))).2 = some e) :
    processModel s nP eP ka g =
      ⟨(resolveNodes s g.nodes).1, [],
       (checkAlloc true nP ka
         (typeCensus ((resolveNodes s g.nodes).1.map fun p => p.2.type))).1,
       some e⟩ := by
  simp only [processModel, h1, h2]

/-- Unfolding of `processModel` when both node phases succeed: the outcome
carries the edge-phase result, whatever it is. -/
theorem processModel_node_ok (s : Settings)
    (nP eP : List String) (ka : Bool) (g : GraphModel)
    (h1 : (resolveNodes s g.nodes).2 = none)
    (h2 : (checkAlloc true nP ka
      (typeCensus ((resolveNodes s g.nodes).1.map fun p => p.2.type))).2 = none) :
    processModel s nP eP ka g =
      ⟨(resolveNodes s g.nodes).1, resolveEdges s g.edges,
       (checkAlloc true nP ka
         (typeCensus ((resolveNodes s g.nodes).1.map fun p => p.2.type))).1 ++
       (checkAlloc false eP ka
         (typeCensus ((resolveEdges s g.edges).map fun p => p.2.type))).1,
       (checkAlloc false eP ka
         (typeCensus ((resolveEdges s g.edges).map fun p => p.2.type))).2⟩ := by
  rcases hce : (checkAlloc false eP ka
      (typeCensus ((resolveEdges s g.edges).map fun p => p.2.type))).2 with _ | e <;>
    simp only [processModel, h1, h2, hce]

/-- C1: whenever some node lacks an `x` or a `y` attribute after the
optional reducer ran, `process` throws the position error; when every node
carries both, no position error is thrown; and a successful
`applyNodeDefaults` keeps the supplied position, substituting no default. -/
theorem claim1_missing_position (s : Settings) (nP eP : List String)
    (ka : Bool) (g : GraphModel) :
    ((∃ p ∈ g.nodes, ¬ hasPosition (applyNodeReducer s p.1 p.2)) →
        ∃ key, (processModel s nP eP ka g).error
          = some (ProcErr.missingPosition key)) ∧
    ((∀ p ∈ g.nodes, hasPosition (applyNodeReducer s p.1 p.2)) →
        ∀ key, (processModel s nP eP ka g).error
          ≠ some (ProcErr.missingPosition key)) ∧
    (∀ key a d, applyNodeDefaults s key a = Except.ok d →
        a.x = some d.x ∧ a.y = some d.y) := by
  refine ⟨?_, ?_, fun key a d h => applyNodeDefaults_ok_pos s key a d h⟩
  · intro h
    obtain ⟨key, hk⟩ := resolveNodes_err_of_bad s g.nodes h
    exact ⟨key, by rw [processModel_err_node_resolution s nP eP ka g _ hk]⟩
  · intro h key
    have h1 : (resolveNodes s g.nodes).2 = none :=
      resolveNodes_none_of_good s g.nodes h
    rcases hca : (checkAlloc true nP ka
        (typeCensus ((resolveNodes s g.nodes).1.map fun p => p.2.type))).2 with _ | e
    · rw [processModel_node_ok s nP eP ka g h1 hca]
      rcases hce : (checkAlloc false eP ka
          (typeCensus ((resolveEdges s g.edges).map fun p => p.2.type))).2 with _ | e2
      · simp [hce]
      · obtain ⟨t, ht, he⟩ := checkAlloc_err_form false eP ka _ e2 hce
        rw [show (⟨(resolveNodes s g.nodes).1, resolveEdges s g.edges, _, _⟩ :
          ProcResult).error = (checkAlloc false eP ka
            (typeCensus ((resolveEdges s g.edges).map fun p => p.2.type))).2 from rfl,
          hce, he]
        simp
    · rw [processModel_err_node_alloc s nP eP ka g e h1 hca]
      obtain ⟨t, ht, he⟩ := checkAlloc_err_form true nP ka _ e hca
      rw [show (⟨(resolveNodes s g.nodes).1, [], _, some e⟩ : ProcResult).error
        = some e from rfl, he]
      simp

/-- Concrete instantiation of C1 at a graph whose second node has no
position. -/
theorem claim1_witness :
    (∃ p ∈ exGraphNoPos.nodes, ¬ hasPosition (applyNodeReducer exSettings p.1 p.2)) ∧
    ∃ key, (processModel exSettings ["circle"] ["line"] false exGraphNoPos).error
      = some (ProcErr.missingPosition key) :=
  ⟨by decide,
   (claim1_missing_position exSettings ["circle"] ["line"] false exGraphNoPos).1
     (by decide)⟩

/-- C6 counterexample: with a registered node type enumerated before an
unregistered one, `process` throws the unregistered-type error only after
having already allocated the buffer of the registered type, so the error is
not raised before every buffer allocation. -/
theorem claim6_counterexample :
    (processModel exSettings ["circle"] ["line"] false exGraphMixed).error
        = some (ProcErr.noNodeProgram "weird") ∧
    (processModel exSettings ["circle"] ["line"] false exGraphMixed).allocs
        = [⟨true, "circle", 1⟩] := by
  decide

/-- C6 (amended): an unregistered resolved type makes `process` throw a
fatal error rather than silently dropping the entity. An unregistered node
type error is raised after every node has been resolved into the node cache,
before the edge loop ran, and before any allocation for the failing type;
allocations for registered types enumerated earlier may already have
happened. An unregistered edge type error is raised after every edge has
been resolved, with no edge allocation for the failing type. -/
theorem claim6_unregistered_type (s : Settings) (nP eP : List String)
    (ka : Bool) (g : GraphModel) (t : String) :
    ((resolveNodes s g.nodes).2 = none →
      (∃ p ∈ (resolveNodes s g.nodes).1, p.2.type ∉ nP) →
      (processModel s nP eP ka g).error ≠ none) ∧
    ((processModel s nP eP ka g).error = some (ProcErr.noNodeProgram t) →
      (processModel s nP eP ka g).nodeCache.length = g.nodes.length ∧
      (processModel s nP eP ka g).edgeCache = [] ∧
      t ∉ nP ∧
      ∀ ev ∈ (processModel s nP eP ka g).allocs, ev.tp ≠ t) ∧
    ((processModel s nP eP ka g).error = some (ProcErr.noEdgeProgram t) →
      (processModel s nP eP ka g).edgeCache.length = g.edges.length ∧
      t ∉ eP ∧
      ∀ ev ∈ (processModel s nP eP ka g).allocs,
        ev.isNode = false → ev.tp ≠ t) := by
  refine ⟨?_, ?_, ?_⟩
  · intro h1 hex herr
    rcases hca : (checkAlloc true nP ka
        (typeCensus ((resolveNodes s g.nodes).1.map fun p => p.2.type))).2 with _ | e
    · obtain ⟨p, hp, hnp⟩ := hex
      have hmemtypes : p.2.type ∈ (resolveNodes s g.nodes).1.map fun q => q.2.type :=
        List.mem_map_of_mem _ hp
      obtain ⟨n, hmem⟩ := typeCensus_mem _ _ hmemtypes
      exact hnp (checkAlloc_none_mem true nP ka _ hca (p.2.type, n) hmem)
    · rw [processModel_err_node_alloc s nP eP ka g e h1 hca] at herr
      simp at herr
  · intro herr
    rcases hrn : (resolveNodes s g.nodes).2 with _ | e0
    · rcases hca : (checkAlloc true nP ka
          (typeCensus ((resolveNodes s g.nodes).1.map fun p => p.2.type))).2 with _ | e
      · rw [processModel_node_ok s nP eP ka g hrn hca] at herr
        rcases hce : (checkAlloc false eP ka
            (typeCensus ((resolveEdges s g.edges).map fun p => p.2.type))).2 with _ | e2
        · rw [show (⟨_, _, _, (checkAlloc false eP ka
            (typeCensus ((resolveEdges s g.edges).map fun p => p.2.type))).2⟩ :
              ProcResult).error = (checkAlloc false eP ka
            (typeCensus ((resolveEdges s g.edges).map fun p => p.2.type))).2
            from rfl, hce] at herr
          simp at herr
        · rw [show (⟨_, _, _, (checkAlloc false eP ka
            (typeCensus ((resolveEdges s g.edges).map fun p => p.2.type))).2⟩ :
              ProcResult).error = (checkAlloc false eP ka
            (typeCensus ((resolveEdges s g.edges).map fun p => p.2.type))).2
            from rfl, hce] at herr
          obtain ⟨t2, ht2, he2⟩ := checkAlloc_err_form false eP ka _ e2 hce
          rw [he2] at herr
          simp at herr
      · rw [processModel_err_node_alloc s nP eP ka g e hrn hca] at herr ⊢
        obtain rfl : e = ProcErr.noNodeProgram t := Option.some.inj herr
        obtain ⟨t2, ht2, he2⟩ := checkAlloc_err_form true nP ka _ _ hca
        obtain rfl : t2 = t := by simpa using he2.symm
        refine ⟨resolveNodes_len s g.nodes hrn, rfl, ht2, ?_⟩
        intro ev hev
        have := (checkAlloc_events true nP ka _ ev hev).2
        intro hcontra
        rw [hcontra] at this
        exact ht2 this
    · rw [processModel_err_node_resolution s nP eP ka g e0 hrn] at herr
      obtain rfl : e0 = ProcErr.noNodeProgram t := Option.some.inj herr
      obtain ⟨key, hk⟩ := resolveNodes_err_form s g.nodes _ hrn
      simp at hk
  · intro herr
    rcases hrn : (resolveNodes s g.nodes).2 with _ | e0
    · rcases hca : (checkAlloc true nP ka
          (typeCensus ((resolveNodes s g.nodes).1.map fun p => p.2.type))).2 with _ | e
      · rw [processModel_node_ok s nP eP ka g hrn hca] at herr ⊢
        rcases hce : (checkAlloc false eP ka
            (typeCensus ((resolveEdges s g.edges).map fun p => p.2.type))).2 with _ | e2
        · rw [show (⟨_, _, _, (checkAlloc false eP ka
            (typeCensus ((resolveEdges s g.edges).map fun p => p.2.type))).2⟩ :
              ProcResult).error = (checkAlloc false eP ka
            (typeCensus ((resolveEdges s g.edges).map fun p => p.2.type))).2
            from rfl, hce] at herr
          simp at herr
        · rw [show (⟨_, _, _, (checkAlloc false eP ka
            (typeCensus ((resolveEdges s g.edges).map fun p => p.2.type))).2⟩ :
              ProcResult).error = (checkAlloc false eP ka
            (typeCensus ((resolveEdges s g.edges).map fun p => p.2.type))).2
            from rfl, hce] at herr
          obtain rfl : e2 = ProcErr.noEdgeProgram t := Option.some.inj herr
          obtain ⟨t2, ht2, he2⟩ := checkAlloc_err_form false eP ka _ _ hce
          obtain rfl : t2 = t := by simpa using he2.symm
          refine ⟨by simp [resolveEdges], ht2, ?_⟩
          intro ev hev hside
          rcases List.mem_append.mp hev with h1 | h2
          · have := (checkAlloc_events true nP ka _ ev h1).1
            rw [hside] at this
            exact absurd this.symm (by simp)
          · have := (checkAlloc_events false eP ka _ ev h2).2
            intro hcontra
            rw [hcontra] at this
            exact ht2 this
      · rw [processModel_err_node_alloc s nP eP ka g e hrn hca] at herr
        obtain rfl : e = ProcErr.noEdgeProgram t := Option.some.inj herr
        obtain ⟨t2, ht2, he2⟩ := checkAlloc_err_form true nP ka _ _ hca
        simp at he2
    · rw [processModel_err_node_resolution s nP eP ka g e0 hrn] at herr
      obtain rfl : e0 = ProcErr.noEdgeProgram t := Option.some.inj herr
      obtain ⟨key, hk⟩ := resolveNodes_err_form s g.nodes _ hrn
      simp at hk

/-- Concrete instantiation of C6 (amended) at the mixed-type graph. -/
theorem claim6_witness :
    (processModel exSettings ["circle"] ["line"] false exGraphMixed).error
        = some (ProcErr.noNodeProgram "weird") ∧
    (processModel exSettings ["circle"] ["line"] false exGraphMixed).nodeCache.length
        = exGraphMixed.nodes.length ∧
    (processModel exSettings ["circle"] ["line"] false exGraphMixed).edgeCache = [] ∧
    "weird" ∉ ["circle"] ∧
    ∀ ev ∈ (processModel exSettings ["circle"] ["line"] false exGraphMixed).allocs,
      ev.tp ≠ "weird" := by
  have h := (claim6_unregistered_type exSettings ["circle"] ["line"] false
    exGraphMixed "weird").2.1 (by decide)
  exact ⟨by decide, h.1, h.2.1, h.2.2.1, h.2.2.2⟩

/-! ### Coordinate transforms (claims C2 and C3) -/

/-- Vector application distributes over the matrix product. -/
theorem multiplyVec_multiply (m n : Aff2) (v : ℚ × ℚ) :
    multiplyVec (multiply m n) v = multiplyVec m (multiplyVec n v) := by
  obtain ⟨v1, v2⟩ := v
  simp only [multiplyVec, multiply]
  rw [Prod.mk.injEq]
  constructor <;> ring

/-- Two scale stages whose factors multiply to one cancel. -/
theorem scale_scale_id (a b a2 b2 : ℚ) (h1 : a * a2 = 1) (h2 : b * b2 = 1)
    (v : ℚ × ℚ) : multiplyVec (scale a b) (multiplyVec (scale a2 b2) v) = v := by
  obtain ⟨v1, v2⟩ := v
  simp only [multiplyVec, scale]
  rw [Prod.mk.injEq]
  constructor
  · linear_combination v1 * h1
  · linear_combination v2 * h2

/-- The rotation by the opposite angle undoes a rotation. -/
theorem rotate_neg_rotate_id (c s : ℚ) (hc : c ^ 2 + s ^ 2 = 1) (v : ℚ × ℚ) :
    multiplyVec (rotate c (-s)) (multiplyVec (rotate c s) v) = v := by
  obtain ⟨v1, v2⟩ := v
  simp only [multiplyVec, rotate]
  rw [Prod.mk.injEq]
  constructor
  · linear_combination v1 * hc
  · linear_combination v2 * hc

/-- A rotation undoes the rotation by the opposite angle. -/
theorem rotate_rotate_neg_id (c s : ℚ) (hc : c ^ 2 + s ^ 2 = 1) (v : ℚ × ℚ) :
    multiplyVec (rotate c s) (multiplyVec (rotate c (-s)) v) = v := by
  obtain ⟨v1, v2⟩ := v
  simp only [multiplyVec, rotate]
  rw [Prod.mk.injEq]
  constructor
  · linear_combination v1 * hc
  · linear_combination v2 * hc

/-- A translation undoes the opposite translation. -/
theorem translate_neg_translate_id (tx ty : ℚ) (v : ℚ × ℚ) :
    multiplyVec (translate tx ty) (multiplyVec (translate (-tx) (-ty)) v) = v := by
  obtain ⟨v1, v2⟩ := v
  simp only [multiplyVec, translate]
  rw [Prod.mk.injEq]
  constructor <;> ring

/-- The opposite translation undoes a translation. -/
theorem translate_neg_translate_id2 (tx ty : ℚ) (v : ℚ × ℚ) :
    multiplyVec (translate (-tx) (-ty)) (multiplyVec (translate tx ty) v) = v := by
  obtain ⟨v1, v2⟩ := v
  simp only [multiplyVec, translate]
  rw [Prod.mk.injEq]
  constructor <;> ring

/-- The inverse camera matrix undoes the forward camera matrix. -/
theorem invMatrix_matrix_apply (c s : ℚ) (state : CameraState)
    (dims graphDims : Dimensions) (padding : ℚ)
    (hc : c ^ 2 + s ^ 2 = 1) (hr : state.ratio ≠ 0)
    (hs : min dims.width dims.height - 2 * padding ≠ 0)
    (hw : dims.width ≠ 0) (hh : dims.height ≠ 0)
    (hg : max graphDims.width graphDims.height ≠ 0) (v : ℚ × ℚ) :
    multiplyVec (matrixFromCamera c s state dims graphDims padding true)
      (multiplyVec (matrixFromCamera c s state dims graphDims padding false) v)
    = v := by
  have hsx0 : (min dims.width dims.height - 2 * padding) / dims.width ≠ 0 :=
    div_ne_zero hs hw
  have hsy0 : (min dims.width dims.height - 2 * padding) / dims.height ≠ 0 :=
    div_ne_zero hs hh
  have hk0 : (2 : ℚ) / max graphDims.width graphDims.height ≠ 0 :=
    div_ne_zero two_ne_zero hg
  simp only [matrixFromCamera, multiplyVec_multiply]
  rw [scale_scale_id _ _ _ _ (one_div_mul_cancel hsx0) (one_div_mul_cancel hsy0),
      rotate_neg_rotate_id c s hc,
      scale_scale_id _ _ _ _ (mul_one_div_cancel hr) (mul_one_div_cancel hr),
      scale_scale_id _ _ _ _ (one_div_mul_cancel hk0) (one_div_mul_cancel hk0),
      translate_neg_translate_id]

/-- The forward camera matrix undoes the inverse camera matrix. -/
theorem matrix_invMatrix_apply (c s : ℚ) (state : CameraState)
    (dims graphDims : Dimensions) (padding : ℚ)
    (hc : c ^ 2 + s ^ 2 = 1) (hr : state.ratio ≠ 0)
    (hs : min dims.width dims.height - 2 * padding ≠ 0)
    (hw : dims.width ≠ 0) (hh : dims.height ≠ 0)
    (hg : max graphDims.width graphDims.height ≠ 0) (v : ℚ × ℚ) :
    multiplyVec (matrixFromCamera c s state dims graphDims padding false)
      (multiplyVec (matrixFromCamera c s state dims graphDims padding true) v)
    = v := by
  have hsx0 : (min dims.width dims.height - 2 * padding) / dims.width ≠ 0 :=
    div_ne_zero hs hw
  have hsy0 : (min dims.width dims.height - 2 * padding) / dims.height ≠ 0 :=
    div_ne_zero hs hh
  have hk0 : (2 : ℚ) / max graphDims.width graphDims.height ≠ 0 :=
    div_ne_zero two_ne_zero hg
  simp only [matrixFromCamera, multiplyVec_multiply]
  rw [translate_neg_translate_id2,
      scale_scale_id _ _ _ _ (mul_one_div_cancel hk0) (mul_one_div_cancel hk0),
      scale_scale_id _ _ _ _ (one_div_mul_cancel hr) (one_div_mul_cancel hr),
      rotate_rotate_neg_id c s hc,
      scale_scale_id _ _ _ _ (mul_one_div_cancel hsx0) (mul_one_div_cancel hsy0)]

/-- Unfolding of `framedGraphToViewport` into the matrix application and the
normalized-device-space conversion. -/
theorem framedGraphToViewport_eq (c s : ℚ) (state : CameraState)
    (dims graphDims : Dimensions) (padding : ℚ) (p : ℚ × ℚ) :
    framedGraphToViewport c s state dims graphDims padding p =
      (((1 + (multiplyVec (matrixFromCamera c s state dims graphDims padding false)
          p).1) * dims.width) / 2,
       ((1 - (multiplyVec (matrixFromCamera c s state dims graphDims padding false)
          p).2) * dims.height) / 2) := rfl

/-- `viewportToFramedGraph` on a point encoded from normalized device space
applies the inverse matrix to the device-space vector directly. -/
theorem viewportToFramedGraph_ndc (c s : ℚ) (state : CameraState)
    (dims graphDims : Dimensions) (padding : ℚ)
    (hw : dims.width ≠ 0) (hh : dims.height ≠ 0) (v : ℚ × ℚ) :
    viewportToFramedGraph c s state dims graphDims padding
        (((1 + v.1) * dims.width) / 2, ((1 - v.2) * dims.height) / 2)
      = multiplyVec (matrixFromCamera c s state dims graphDims padding true) v := by
  simp only [viewportToFramedGraph]
  congr 1
  rw [Prod.ext_iff]
  constructor
  · field_simp
    ring
  · field_simp
    ring

/-- C2: composing the two coordinate mappings with no override, so that both
use the matrix pair derived from the one current camera state, round-trips
exactly: `viewportToFramedGraph (framedGraphToViewport p) = p` for every
camera state with nonzero ratio and every point, over exact rational
arithmetic. -/
theorem claim2_round_trip (c s : ℚ) (state : CameraState)
    (dims graphDims : Dimensions) (padding : ℚ) (p : ℚ × ℚ)
    (hc : c ^ 2 + s ^ 2 = 1)
    (hw : dims.width ≠ 0) (hh : dims.height ≠ 0)
    (hr : state.ratio ≠ 0)
    (hs : min dims.width dims.height - 2 * padding ≠ 0)
    (hg : max graphDims.width graphDims.height ≠ 0) :
    viewportToFramedGraph c s state dims graphDims padding
      (framedGraphToViewport c s state dims graphDims padding p) = p := by
  rw [framedGraphToViewport_eq,
      viewportToFramedGraph_ndc c s state dims graphDims padding hw hh]
  exact invMatrix_matrix_apply c s state dims graphDims padding hc hr hs hw hh hg p

/-- Concrete instantiation of C2 at a rotationless camera with ratio 2. -/
theorem claim2_witness :
    ((1 : ℚ) ^ 2 + 0 ^ 2 = 1) ∧ exDims.width ≠ 0 ∧ exDims.height ≠ 0 ∧
    exCamera.ratio ≠ 0 ∧
    min exDims.width exDims.height - 2 * 0 ≠ 0 ∧
    max exGraphDims.width exGraphDims.height ≠ 0 ∧
    viewportToFramedGraph 1 0 exCamera exDims exGraphDims 0
      (framedGraphToViewport 1 0 exCamera exDims exGraphDims 0 (5, 7)) = (5, 7) :=
  ⟨by norm_num, by norm_num [exDims], by norm_num [exDims], by norm_num [exCamera],
   by norm_num [exDims, min_def], by norm_num [exGraphDims, max_def],
   claim2_round_trip 1 0 exCamera exDims exGraphDims 0 (5, 7) (by norm_num)
     (by norm_num [exDims]) (by norm_num [exDims]) (by norm_num [exCamera])
     (by norm_num [exDims, min_def]) (by norm_num [exGraphDims, max_def])⟩

/-- The viewport center maps to the camera pan under the inverse transform:
the camera looks at its pan position, which lives in framed-graph
coordinates. -/
theorem viewportToFramedGraph_center (c s : ℚ) (state : CameraState)
    (dims graphDims : Dimensions) (padding : ℚ)
    (hw : dims.width ≠ 0) (hh : dims.height ≠ 0) :
    viewportToFramedGraph c s state dims graphDims padding
        (dims.width / 2, dims.height / 2) = (state.x, state.y) := by
  simp only [viewportToFramedGraph, matrixFromCamera, multiplyVec_multiply]
  have h1 : ((dims.width / 2) / dims.width) * 2 - 1 = (0 : ℚ) := by
    field_simp
    ring
  have h2 : (1 : ℚ) - ((dims.height / 2) / dims.height) * 2 = 0 := by
    field_simp
    ring
  rw [h1, h2]
  simp [multiplyVec, scale, rotate, translate]

/-- Core of the zoom-on-point argument: changing the ratio stage to
`1 / r2` while shifting the translation stage toward the point `v` by the
factor `1 - r2 / r` leaves the image of `v` under the three inner stages of
the forward matrix unchanged. -/
theorem pan_ratio_core (k r r2 x y : ℚ) (v : ℚ × ℚ)
    (hr : r ≠ 0) (hr2 : r2 ≠ 0) :
    multiplyVec (scale (1 / r2) (1 / r2)) (multiplyVec (scale k k)
      (multiplyVec (translate (-((v.1 - x) * (1 - r2 / r) + x))
                              (-((v.2 - y) * (1 - r2 / r) + y))) v))
    = multiplyVec (scale (1 / r) (1 / r)) (multiplyVec (scale k k)
      (multiplyVec (translate (-x) (-y)) v)) := by
  obtain ⟨q1, q2⟩ := v
  simp only [multiplyVec, scale, translate]
  rw [Prod.mk.injEq]
  constructor <;> field_simp <;> ring

/-- Changing the ratio to `newRatio` while shifting the pan toward a point
`q` by the factor `1 - newRatio / ratio` leaves the image of `q` under the
forward camera matrix unchanged. -/
theorem matrix_pan_ratio_change (c s : ℚ) (state : CameraState)
    (dims graphDims : Dimensions) (padding : ℚ) (newRatio : ℚ) (q : ℚ × ℚ)
    (hr : state.ratio ≠ 0) (hr2 : newRatio ≠ 0) :
    multiplyVec (matrixFromCamera c s
        ⟨(q.1 - state.x) * (1 - newRatio / state.ratio) + state.x,
         (q.2 - state.y) * (1 - newRatio / state.ratio) + state.y,
         state.angle, newRatio⟩ dims graphDims padding false) q
      = multiplyVec (matrixFromCamera c s state dims graphDims padding false) q := by
  simp only [matrixFromCamera, multiplyVec_multiply]
  rw [pan_ratio_core (2 / max graphDims.width graphDims.height) state.ratio newRatio
      state.x state.y q hr hr2]

/-- C3: `getViewportZoomedState` keeps the angle, takes the new ratio, and
shifts the pan by the framed-graph anchor delta scaled by
`1 - newRatio / ratio`; transforming the anchored graph point under the
resulting camera state maps back to the same viewport pixel, for any nonzero
old and new ratios. -/
theorem claim3_zoomed_state (c s : ℚ) (state : CameraState)
    (dims graphDims : Dimensions) (padding : ℚ) (target : ℚ × ℚ) (newRatio : ℚ)
    (hc : c ^ 2 + s ^ 2 = 1) (hw : dims.width ≠ 0) (hh : dims.height ≠ 0)
    (hr : state.ratio ≠ 0) (hr2 : newRatio ≠ 0)
    (hs : min dims.width dims.height - 2 * padding ≠ 0)
    (hg : max graphDims.width graphDims.height ≠ 0) :
    (getViewportZoomedState c s state dims graphDims padding target newRatio).angle
        = state.angle ∧
    (getViewportZoomedState c s state dims graphDims padding target newRatio).ratio
        = newRatio ∧
    (getViewportZoomedState c s state dims graphDims padding target newRatio).x
        = ((viewportToFramedGraph c s state dims graphDims padding target).1
            - state.x) * (1 - newRatio / state.ratio) + state.x ∧
    (getViewportZoomedState c s state dims graphDims padding target newRatio).y
        = ((viewportToFramedGraph c s state dims graphDims padding target).2
            - state.y) * (1 - newRatio / state.ratio) + state.y ∧
    framedGraphToViewport c s
        (getViewportZoomedState c s state dims graphDims padding target newRatio)
        dims graphDims padding
        (viewportToFramedGraph c s state dims graphDims padding target) = target := by
  have hcenter := viewportToFramedGraph_center c s state dims graphDims padding hw hh
  have hstate : getViewportZoomedState c s state dims graphDims padding target newRatio
      = ⟨((viewportToFramedGraph c s state dims graphDims padding target).1
            - state.x) * (1 - newRatio / state.ratio) + state.x,
         ((viewportToFramedGraph c s state dims graphDims padding target).2
            - state.y) * (1 - newRatio / state.ratio) + state.y,
         state.angle, newRatio⟩ := by
    simp only [getViewportZoomedState]
    rw [hcenter]
  refine ⟨by rw [hstate], by rw [hstate], by rw [hstate], by rw [hstate], ?_⟩
  rw [hstate, framedGraphToViewport_eq]
  have hu : viewportToFramedGraph c s state dims graphDims padding target
      = multiplyVec (matrixFromCamera c s state dims graphDims padding true)
          ((target.1 / dims.width) * 2 - 1, 1 - (target.2 / dims.height) * 2) := rfl
  have hM : multiplyVec (matrixFromCamera c s
      ⟨((viewportToFramedGraph c s state dims graphDims padding target).1
          - state.x) * (1 - newRatio / state.ratio) + state.x,
        ((viewportToFramedGraph c s state dims graphDims padding target).2
          - state.y) * (1 - newRatio / state.ratio) + state.y,
        state.angle, newRatio⟩ dims graphDims padding false)
      (viewportToFramedGraph c s state dims graphDims padding target)
    = ((target.1 / dims.width) * 2 - 1, 1 - (target.2 / dims.height) * 2) := by
    rw [matrix_pan_ratio_change c s state dims graphDims padding newRatio
        (viewportToFramedGraph c s state dims graphDims padding target) hr hr2]
    rw [hu]
    exact matrix_invMatrix_apply c s state dims graphDims padding hc hr hs hw hh hg _
  rw [hM]
  rw [Prod.ext_iff]
  constructor
  · field_simp
  · field_simp

/-- Concrete instantiation of C3 at ratio 2, zooming in to ratio 1 and out to
ratio 4. -/
theorem claim3_witness :
    exCamera.ratio ≠ 0 ∧ (1 : ℚ) ≠ 0 ∧ (4 : ℚ) ≠ 0 ∧
    (getViewportZoomedState 1 0 exCamera exDims exGraphDims 0 (10, 20) 1).ratio
      = 1 ∧
    (getViewportZoomedState 1 0 exCamera exDims exGraphDims 0 (10, 20) 4).ratio
      = 4 ∧
    (getViewportZoomedState 1 0 exCamera exDims exGraphDims 0 (10, 20) 1).angle
      = exCamera.angle ∧
    framedGraphToViewport 1 0
      (getViewportZoomedState 1 0 exCamera exDims exGraphDims 0 (10, 20) 1)
      exDims exGraphDims 0
      (viewportToFramedGraph 1 0 exCamera exDims exGraphDims 0 (10, 20))
      = (10, 20) ∧
    framedGraphToViewport 1 0
      (getViewportZoomedState 1 0 exCamera exDims exGraphDims 0 (10, 20) 4)
      exDims exGraphDims 0
      (viewportToFramedGraph 1 0 exCamera exDims exGraphDims 0 (10, 20))
      = (10, 20) :=
  ⟨by norm_num [exCamera], by norm_num, by norm_num,
   (claim3_zoomed_state 1 0 exCamera exDims exGraphDims 0 (10, 20) 1 (by norm_num)
     (by norm_num [exDims]) (by norm_num [exDims]) (by norm_num [exCamera])
     (by norm_num) (by norm_num [exDims, min_def])
     (by norm_num [exGraphDims, max_def])).2.1,
   (claim3_zoomed_state 1 0 exCamera exDims exGraphDims 0 (10, 20) 4 (by norm_num)
     (by norm_num [exDims]) (by norm_num [exDims]) (by norm_num [exCamera])
     (by norm_num) (by norm_num [exDims, min_def])
     (by norm_num [exGraphDims, max_def])).2.1,
   (claim3_zoomed_state 1 0 exCamera exDims exGraphDims 0 (10, 20) 1 (by norm_num)
     (by norm_num [exDims]) (by norm_num [exDims]) (by norm_num [exCamera])
     (by norm_num) (by norm_num [exDims, min_def])
     (by norm_num [exGraphDims, max_def])).1,
   (claim3_zoomed_state 1 0 exCamera exDims exGraphDims 0 (10, 20) 1 (by norm_num)
     (by norm_num [exDims]) (by norm_num [exDims]) (by norm_num [exCamera])
     (by norm_num) (by norm_num [exDims, min_def])
     (by norm_num [exGraphDims, max_def])).2.2.2.2,
   (claim3_zoomed_state 1 0 exCamera exDims exGraphDims 0 (10, 20) 4 (by norm_num)
     (by norm_num [exDims]) (by norm_num [exDims]) (by norm_num [exCamera])
     (by norm_num) (by norm_num [exDims, min_def])
     (by norm_num [exGraphDims, max_def])).2.2.2.2⟩

end SigmaJS
